import Mathlib

/-!
Verification development for the API Loader and Request Pipeline Assembler of
an HTTP API gateway.  The definitions below are a shallow embedding of the Go
source (package `gateway`): the listen-path collision arbitration loop, the
TLS-version normalisation, descriptor validation, the chain-object fields
produced by `processSpec`, the loop dispatcher (`isLoop` and
`DummyProxyHandler.ServeHTTP`), the strict-route gate
(`explicitRouteSubpaths`), the sort key `listenPathLength`, and the
canonical looping name (`trimCategories` / `APILoopingName`).

Modelling conventions:
- Go strings are modelled as Lean `String`; character-level Go helpers from
  the standard library (`strings.Contains` with a one-character needle,
  `strings.HasPrefix`, `strings.HasSuffix`) are modelled on the underlying
  character list so that they evaluate by kernel reduction.
- The collision map `map[string]int` is modelled as an association list
  `List (String × Nat)`; a missing key counts as 0, as in Go.
- The unbounded `for` loop of the arbitration is realised through a fuel
  parameter, with fuel 1 + the length of the longest map key: the theorems
  prove this fuel always suffices (the path grows strictly at each
  iteration, so a key longer than every key of the finite map, which has
  count 0, is reached before the fuel runs out), which is exactly the
  termination argument of the source.
- Fallible computations (a Go runtime panic) are modelled with `Option`:
  `none` is the fault.
- `url.Parse` success and the key-value store resolution are external
  collaborators of this subsystem; they are abstracted as fields of the
  `Gateway` model and universally quantified in the theorems.
-/

/-- Models `strings.Contains(s, string(c))` for a one-character needle:
`skipSpecBecauseInvalid` uses needle `" "`, `explicitRouteSubpaths` uses
needles `"{"` and `"}"`, `listenPathLength` uses needle `"{"`. -/
def stringsContainsChar (s : String) (c : Char) : Bool :=
  s.data.contains c

/-- Models `strings.HasPrefix(s, pre)`. -/
def stringsHasPrefix (s pre : String) : Bool :=
  pre.data.isPrefixOf s.data

/-- Models `strings.HasSuffix(s, suf)`. -/
def stringsHasSuffix (s suf : String) : Bool :=
  suf.data.isSuffixOf s.data

/-- Source: `func generateDomainPath(hostname, listenPath string) string`. -/
def generateDomainPath (hostname listenPath : String) : String :=
  hostname ++ listenPath

/-- Lookup in the collision map built by `countApisByListenHash`
(`map[string]int` read as `apisByListen[hash]`; absent keys count 0). -/
def lookupCount (m : List (String × Nat)) (k : String) : Nat :=
  match m.find? (fun p => p.1 == k) with
  | some p => p.2
  | none => 0

/-- Length of the longest key of the collision map; `maxKeyLen m + 1` is the
fuel of the arbitration loop. -/
def maxKeyLen (m : List (String × Nat)) : Nat :=
  m.foldr (fun p acc => max p.1.length acc) 0

/-- One step of the listen-path arbitration loop of `processSpec` (source
lines 194-216), recursing on fuel.  State: the current
`spec.Proxy.ListenPath` and the `pathModified` flag.  `prevPath` models
`gw.getApiSpec(spec.APIID).Proxy.ListenPath` (`none` for a nil previous
descriptor).  The domain is recomputed each iteration in the source, but
`GetAPIDomain` reads only fields the loop never mutates, so it is a
constant here. -/
def listenPathGo (fuel : Nat) (m : List (String × Nat)) (domain apiID : String)
    (prevPath : Option String) (listenPath : String) (pathModified : Bool) :
    String × Bool :=
  match fuel with
  | 0 => (listenPath, pathModified)
  | fuel + 1 =>
    if lookupCount m (generateDomainPath domain listenPath) < 2 then
      (listenPath, pathModified)
    else if pathModified = false then
      if prevPath = some listenPath then
        (listenPath, pathModified)
      else
        listenPathGo fuel m domain apiID prevPath (listenPath ++ "-" ++ apiID) true
    else
      listenPathGo fuel m domain apiID prevPath (listenPath ++ "_") true

/-- The listen-path arbitration loop of `processSpec`, entered with an
unmodified path; the fuel is the proved termination bound. -/
def listenPathLoop (m : List (String × Nat)) (domain apiID : String)
    (prevPath : Option String) (listenPath : String) : String × Bool :=
  listenPathGo (maxKeyLen m + 1) m domain apiID prevPath listenPath false

/-- The string of `k` underscore characters appended by the suffixing phase. -/
def underscores : Nat → String
  | 0 => ""
  | n + 1 => "_" ++ underscores n

/-- Go constant `tls.VersionTLS12` (0x0303). -/
def versionTLS12 : Nat := 771

/-- The API descriptor fields consumed by the embedded subsystem.
`Domain` stands for `spec.GetAPIDomain()` (the method reads configuration
fields the loader never mutates), `ListenPath` for `spec.Proxy.ListenPath`,
`TargetURL` for `spec.Proxy.TargetURL`, and `SSLMinVersion` / `SSLMaxVersion`
for `spec.Proxy.Transport.SSLMinVersion` / `SSLMaxVersion` (Go `uint16`,
modelled as `Nat` since the code only compares and copies these values). -/
structure APISpec where
  APIID : String
  Name : String
  Protocol : String
  Domain : String
  ListenPath : String
  TargetURL : String
  Internal : Bool
  UseKeylessAccess : Bool
  SSLMinVersion : Nat
  SSLMaxVersion : Nat
  TagHeaders : List String
  deriving DecidableEq, Repr

/-- The ambient gateway collaborators used by `skipSpecBecauseInvalid` and
`processSpec`: `kvStore` models `gw.kvStore` (`some` is the resolved value
on a nil error; `none` is an error, leaving the target unchanged);
`urlParses` models success of `url.Parse` from the Go standard library;
`prevListenPath` models `gw.getApiSpec(apiID)` restricted to the one field
the arbitration loop reads (`none` for a nil previous descriptor). -/
structure Gateway where
  kvStore : String → Option String
  urlParses : String → Bool
  prevListenPath : String → Option String

/-- The switch at the top of `skipSpecBecauseInvalid` (source lines 71-81):
for the HTTP protocol family an empty listen path, or one containing a
space character, is invalid. -/
def isHTTPFamilyBadListenPath (s : APISpec) : Bool :=
  match s.Protocol with
  | "" | "http" | "https" => s.ListenPath == "" || stringsContainsChar s.ListenPath ' '
  | _ => false

/-- Source: `func (gw *Gateway) skipSpecBecauseInvalid(spec, logger) bool`
(lines 70-93).  The Go function mutates `spec.Proxy.TargetURL` through the
KV resolution, so the embedding returns the updated descriptor as well. -/
def skipSpecBecauseInvalid (gw : Gateway) (s : APISpec) : Bool × APISpec :=
  if isHTTPFamilyBadListenPath s then (true, s)
  else
    let s := match gw.kvStore s.TargetURL with
      | some val => { s with TargetURL := val }
      | none => s
    if gw.urlParses s.TargetURL then (false, s) else (true, s)

/-- TLS normalisation step of `processSpec` (source lines 165-171). -/
def clampTLS (s : APISpec) : APISpec :=
  let s := if s.SSLMaxVersion > 0 then { s with SSLMaxVersion := versionTLS12 } else s
  if s.SSLMinVersion > s.SSLMaxVersion then { s with SSLMaxVersion := s.SSLMinVersion } else s

/-- Tag-header lowercasing step of `processSpec` (source lines 173-181);
`String.toLower` stands in for `strings.ToLower`. -/
def lowercaseTagHeaders (s : APISpec) : APISpec :=
  { s with TagHeaders := s.TagHeaders.map String.toLower }

/-- Opaque tokens for the handler chains assembled by `processSpec`: the
middleware bodies are external collaborators, so only the identity of the
assembled chain matters here. -/
inductive HandlerKind where
  | mainChain (apiID : String)
  | rateLimitChain (apiID : String)
  deriving DecidableEq, Repr

/-- Source: `type ChainObject struct` (lines 39-44).  Go `http.Handler`
fields are nilable, hence `Option`. -/
structure ChainObject where
  ThisHandler : Option HandlerKind
  RateLimitChain : Option HandlerKind
  Open : Bool
  Skip : Bool
  deriving DecidableEq, Repr

/-- The chain-object assembly of `processSpec` (source lines 140-534),
restricted to the state the claims are about: TLS normalisation, tag-header
lowercasing, validation with the early `Skip` return, the `Internal` skip
flag, listen-path arbitration, `Open` for keyless access, and the
rate-limit side-chain built only inside the `!spec.UseKeylessAccess` block
(lines 484-499).  The middleware stages appended to the main chain are
collapsed into the opaque `HandlerKind.mainChain` token (tracing and
OpenTelemetry wrapping preserve the chain identity and are not
distinguished).  Returns the chain object together with the final
descriptor. -/
def processSpec (gw : Gateway) (apisByListen : List (String × Nat)) (spec : APISpec) :
    ChainObject × APISpec :=
  let spec := clampTLS spec
  let spec := lowercaseTagHeaders spec
  match skipSpecBecauseInvalid gw spec with
  | (true, spec) =>
      ({ ThisHandler := none, RateLimitChain := none, Open := false, Skip := true }, spec)
  | (false, spec) =>
      let skip := spec.Internal
      let arb := listenPathLoop apisByListen spec.Domain spec.APIID
        (gw.prevListenPath spec.APIID) spec.ListenPath
      let spec := { spec with ListenPath := arb.1 }
      let chainOpen := spec.UseKeylessAccess
      let rlChain := if spec.UseKeylessAccess then none
        else some (HandlerKind.rateLimitChain spec.APIID)
      ({ ThisHandler := some (HandlerKind.mainChain spec.APIID),
         RateLimitChain := rlChain, Open := chainOpen, Skip := skip }, spec)

/-- The registration step of `loadHTTPService` (source lines 815-841): a
chain object with `Skip` contributes no route; otherwise the two prefixes
`/<api_id>/` and the listen path are registered. -/
def registeredRoutes (chainObj : ChainObject) (spec : APISpec) : List String :=
  if chainObj.Skip then []
  else ["/" ++ spec.APIID ++ "/", spec.ListenPath]

/-- Models `strings.Split(s, string(sep))` for a one-character separator,
on the character list (empty substrings preserved, as in Go). -/
def splitOnChar (cs : List Char) (sep : Char) : List (List Char) :=
  match cs with
  | [] => [[]]
  | c :: rest =>
      match splitOnChar rest sep with
      | [] => [[c]]
      | h :: t => if c == sep then [] :: h :: t else (c :: h) :: t

/-- Source: `func listenPathLength(listenPath string) int` (lines 963-981):
without `{` the plain length; otherwise the count of `/` plus the length of
every segment not of the form braces-with-non-empty-content. -/
def listenPathLength (listenPath : String) : Nat :=
  if !(stringsContainsChar listenPath '{') then listenPath.length
  else
    let segments := splitOnChar listenPath.data '/'
    let slashes := listenPath.data.countP (fun c => c == '/')
    slashes + (segments.foldr (fun segment acc =>
      if segment.length > 2 && segment.head? == some '{' &&
          segment.getLast? == some '}' then acc
      else segment.length + acc) 0)

/-- The comparator passed to `sort.Slice` by `sortSpecsByListenPath`
(source lines 948-961).  The sort itself is performed by the Go standard
library (`sort.Slice`, an unstable sort), which is outside this
repository; only the comparator is embedded. -/
def sortSpecsLess (a b : APISpec) : Bool :=
  if (a.Domain == "") != (b.Domain == "") then a.Domain != ""
  else listenPathLength a.ListenPath > listenPathLength b.ListenPath

/-- Request URL (`net/url.URL`); only the scheme is consulted by the
embedded code paths. -/
structure NetURL where
  Scheme : String
  deriving DecidableEq, Repr

/-- The request state read and written by `DummyProxyHandler.ServeHTTP` and
`isLoop`: the URL, the method, and the request-context fields
(`ctxGetURLRewriteTarget`, `ctxGetTransformRequestMethod`, `ctxLoopLevel`,
`ctxLoopLevelLimit`; Go context ints are modelled as `Int`). -/
structure Request where
  URL : NetURL
  Method : String
  ctxURLRewriteTarget : Option NetURL
  ctxTransformRequestMethod : String
  ctxLoopLevel : Int
  ctxLoopLevelLimit : Int
  deriving DecidableEq, Repr

/-- Source: `const defaultLoopLevelLimit = 5` (line 564). -/
def defaultLoopLevelLimit : Int := 5

/-- The message of the error built by `isLoop` via `fmt.Errorf` (line 577). -/
def loopLevelMsg (limit : Int) : String :=
  "Loop level too deep. Found more than " ++ toString limit ++
    " loops in single request"

/-- Source: `func isLoop(r *http.Request) (bool, error)` (lines 566-581).
The error is modelled by its message. -/
def isLoop (r : Request) : Bool × Option String :=
  if r.URL.Scheme ≠ "tyk" then (false, none)
  else
    let limit := if r.ctxLoopLevelLimit = 0 then defaultLoopLevelLimit
      else r.ctxLoopLevelLimit
    if r.ctxLoopLevel > limit then (true, some (loopLevelMsg limit))
    else (true, none)

/-- The effective per-request cap applied by `isLoop`: the request-context
limit when nonzero, the default of 5 otherwise. -/
def loopCap (r : Request) : Int :=
  if r.ctxLoopLevelLimit = 0 then defaultLoopLevelLimit else r.ctxLoopLevelLimit

/-- The two context-consumption steps at the top of
`DummyProxyHandler.ServeHTTP` (source lines 589-596): a pending URL-rewrite
target replaces the URL and is cleared; then a pending method transform
replaces the method and is cleared. -/
def consumeRequestContext (r : Request) : Request :=
  let r := match r.ctxURLRewriteTarget with
    | some newURL => { r with URL := newURL, ctxURLRewriteTarget := none }
    | none => r
  if r.ctxTransformRequestMethod ≠ "" then
    { r with Method := r.ctxTransformRequestMethod, ctxTransformRequestMethod := "" }
  else r

/-- Outcome of `DummyProxyHandler.ServeHTTP`, up to the abstraction
boundary of this embedding: an error response written through
`ErrorHandler.HandleError`, entry into the loop-dispatch block (lines
604-649, whose target resolution uses live gateway state outside this
model), or the fall-through to the target-scheme check and the success
handler (lines 652-677). -/
inductive ServeOutcome where
  | errorResponse (status : Nat) (msg : String)
  | loopDispatch (r : Request)
  | passThrough (r : Request)
  deriving DecidableEq, Repr

/-- Source: `func (d *DummyProxyHandler) ServeHTTP(w, r)` (lines 588-602):
consume the two context fields, then check `isLoop`; a loop with an error
is answered with HTTP 500 (`http.StatusInternalServerError`) carrying the
error message. -/
def dummyProxyServeHTTP (r : Request) : ServeOutcome :=
  let r := consumeRequestContext r
  match isLoop r with
  | (true, some msg) => ServeOutcome.errorResponse 500 msg
  | (true, none) => ServeOutcome.loopDispatch r
  | (false, _) => ServeOutcome.passThrough r

/-- Handlers registered on the router: an assembled chain, or the
strict-route wrapper `explicitRouteHandler` (source lines 736-739). -/
inductive HTTPHandler where
  | chain (tag : String)
  | explicitRouteHandler (pfx : String) (inner : HTTPHandler)
  deriving DecidableEq, Repr

/-- Source: `func explicitRouteSubpaths(prefix, handler, enabled)` (lines
751-770): disabled, a trailing slash, or routing parameters leave the
handler untouched; otherwise the handler is wrapped. -/
def explicitRouteSubpaths (pfx : String) (handler : HTTPHandler) (enabled : Bool) :
    HTTPHandler :=
  if !enabled then handler
  else if stringsHasSuffix pfx "/" then handler
  else if stringsContainsChar pfx '{' && stringsContainsChar pfx '}' then handler
  else HTTPHandler.explicitRouteHandler pfx handler

/-- Result of serving one request: forwarded to the wrapped handler, or a
direct status response. -/
inductive ServeResult where
  | forwarded (inner : HTTPHandler)
  | response (status : Nat) (body : String)
  deriving DecidableEq, Repr

/-- Source: `func (h *explicitRouteHandler) ServeHTTP(w, r)` (lines
741-749); `http.StatusText(http.StatusNotFound)` is the literal
`"Not Found"`. -/
def explicitRouteServe (pfx : String) (inner : HTTPHandler) (urlPath : String) :
    ServeResult :=
  if urlPath == pfx || stringsHasPrefix urlPath (pfx ++ "/") then
    ServeResult.forwarded inner
  else
    ServeResult.response 404 "Not Found"

/-- Source: `func trimCategories(name string) string` (lines 704-710).
`strings.Index(name, "#")` is modelled at character level (the two agree on
the inputs of interest; Go indexes bytes).  When the first `#` is at index
0, the Go slice `name[:i-1]` is out of range and panics at run time; the
fault is modelled as `none`. -/
def trimCategories (name : String) : Option String :=
  match name.data.findIdx? (fun c => c == '#') with
  | some i => if i = 0 then none else some (String.mk (name.data.take (i - 1)))
  | none => some name

/-- Modelled from the spec: `replaceNonAlphaNumeric` is not among the
source files (only its caller `APILoopingName` is); the spec says the
canonical looping name replaces all non-alphanumeric characters.  The
replacement character is modelled as `-`; no theorem depends on that
choice. -/
def replaceNonAlphaNumeric (s : String) : String :=
  String.mk (s.data.map (fun c => if c.isAlphanum then c else '-'))

/-- Source: `func APILoopingName(name string) string` (lines 712-714); the
fault of `trimCategories` propagates. -/
def APILoopingName (name : String) : Option String :=
  (trimCategories name).map replaceNonAlphaNumeric

/-- The trimming step as worded by the spec and claim C9: strip everything
at and after the first `#`, including the one character preceding it.  This
reading is total: for a leading `#` the `take (i - 1)` truncates at 0. -/
def specTrimCategories (name : String) : String :=
  match name.data.findIdx? (fun c => c == '#') with
  | some i => String.mk (name.data.take (i - 1))
  | none => name

/-- The rejection condition as worded by claim C7, with "contains
whitespace" read as any whitespace character (the source checks only the
space character). -/
def claimC7Condition (gw : Gateway) (s : APISpec) : Prop :=
  s.ListenPath = "" ∨ s.ListenPath.data.any (fun c => c.isWhitespace) = true ∨
    gw.urlParses ((gw.kvStore s.TargetURL).getD s.TargetURL) = false

/-- A gateway with no KV indirection, an always-succeeding URL parser and
no previously loaded descriptors; used for concrete evaluations. -/
def gw0 : Gateway :=
  { kvStore := fun _ => none, urlParses := fun _ => true,
    prevListenPath := fun _ => none }

/-- A well-formed keyless HTTP descriptor; the concrete inputs below are
record updates of it. -/
def specBase : APISpec :=
  { APIID := "api1", Name := "api one", Protocol := "http", Domain := "",
    ListenPath := "/x", TargetURL := "http://upstream.example",
    Internal := false, UseKeylessAccess := true, SSLMinVersion := 0,
    SSLMaxVersion := 0, TagHeaders := [] }

/-- Concrete input for claim C2: minimum version TLS 1.3 (0x0304 = 772),
maximum version 0. -/
def specMin13 : APISpec := { specBase with SSLMinVersion := 772, SSLMaxVersion := 0 }

/-- Concrete input for claim C7: a listen path containing a tab. -/
def specTabPath : APISpec := { specBase with ListenPath := "/a\tb" }

/-- Concrete input for claim C5: authenticated but invalid (empty listen
path). -/
def specClosedInvalid : APISpec :=
  { specBase with ListenPath := "", UseKeylessAccess := false }

/-- Concrete input for the claim C5 witness: authenticated and valid. -/
def specClosed : APISpec := { specBase with UseKeylessAccess := false }

/-- Concrete input for claim C3: an internal-scheme request at loop level 6
with the default cap. -/
def reqLoopDeep : Request :=
  { URL := { Scheme := "tyk" }, Method := "GET", ctxURLRewriteTarget := none,
    ctxTransformRequestMethod := "", ctxLoopLevel := 6, ctxLoopLevelLimit := 0 }

theorem length_le_maxKeyLen {m : List (String × Nat)} {p : String × Nat}
    (hp : p ∈ m) : p.1.length ≤ maxKeyLen m := by
  induction m with
  | nil => cases hp
  | cons x xs ih =>
      rcases List.mem_cons.mp hp with h | h
      · subst h; exact Nat.le_max_left _ _
      · exact Nat.le_trans (ih h) (Nat.le_max_right _ _)

theorem length_le_of_lookupCount_pos {m : List (String × Nat)} {k : String}
    (h : 1 ≤ lookupCount m k) : k.length ≤ maxKeyLen m := by
  unfold lookupCount at h
  cases hf : m.find? (fun p => p.1 == k) with
  | none => rw [hf] at h; exact absurd h (by simp)
  | some p =>
      rw [hf] at h
      have hmem := List.mem_of_find?_eq_some hf
      have hkey := List.find?_some hf
      have hk : p.1 = k := by simpa using hkey
      subst hk
      exact length_le_maxKeyLen hmem

theorem listenPathGo_suffix_spec (m : List (String × Nat)) (domain apiID : String)
    (prevPath : Option String) :
    ∀ n listenPath, maxKeyLen m + 1 - (domain.length + listenPath.length) ≤ n →
    ∃ k, listenPathGo n m domain apiID prevPath listenPath true =
        (listenPath ++ underscores k, true) ∧
      lookupCount m (generateDomainPath domain (listenPath ++ underscores k)) < 2 ∧
      ∀ j, j < k →
        2 ≤ lookupCount m (generateDomainPath domain (listenPath ++ underscores j)) := by
  intro n
  induction n with
  | zero =>
      intro lp h
      have hc : lookupCount m (generateDomainPath domain lp) < 2 := by
        by_contra hc
        have hl := length_le_of_lookupCount_pos
          (m := m) (k := generateDomainPath domain lp) (by omega)
        rw [generateDomainPath, String.length_append] at hl
        omega
      refine ⟨0, ?_, ?_, ?_⟩
      · simp [listenPathGo, underscores, String.append_empty]
      · simpa [underscores, String.append_empty] using hc
      · intro j hj; omega
  | succ n ih =>
      intro lp h
      by_cases hc : lookupCount m (generateDomainPath domain lp) < 2
      · refine ⟨0, ?_, ?_, ?_⟩
        · simp [listenPathGo, hc, underscores, String.append_empty]
        · simpa [underscores, String.append_empty] using hc
        · intro j hj; omega
      · have hl := length_le_of_lookupCount_pos
          (m := m) (k := generateDomainPath domain lp) (by omega)
        rw [generateDomainPath, String.length_append] at hl
        have hm : maxKeyLen m + 1 - (domain.length + (lp ++ "_").length) ≤ n := by
          rw [String.length_append]
          have h1 : ("_" : String).length = 1 := rfl
          omega
        obtain ⟨k, hk, hlt, hmin⟩ := ih (lp ++ "_") hm
        have happ : ∀ j, lp ++ underscores (j + 1) = (lp ++ "_") ++ underscores j := by
          intro j
          rw [underscores, ← String.append_assoc]
        refine ⟨k + 1, ?_, ?_, ?_⟩
        · rw [listenPathGo.eq_def]
          simp only []
          rw [if_neg hc, if_neg (show ¬(true = false) by simp), hk, happ k]
        · rw [happ k]; exact hlt
        · intro j hj
          cases j with
          | zero =>
              have h0 : lp ++ underscores 0 = lp := by
                simp [underscores, String.append_empty]
              rw [h0]; omega
          | succ j' =>
              rw [happ j']
              exact hmin j' (by omega)

/-- Claim C1: listen-path arbitration in `processSpec`.  A descriptor whose
`domain ++ listen_path` key has count below 2 keeps its path; with count at
least 2, if the previously loaded descriptor of the same `api_id` held
exactly this listen path the path is kept; otherwise `-apiID` is appended
once and then `_` repeatedly, recomputing the key after each mutation, until
the key count drops below 2 (and the number `k` of underscores is minimal
with that property). -/
theorem listenPath_arbitration (m : List (String × Nat)) (domain apiID : String)
    (prevPath : Option String) (listenPath : String) :
    (lookupCount m (generateDomainPath domain listenPath) < 2 →
      listenPathLoop m domain apiID prevPath listenPath = (listenPath, false)) ∧
    (2 ≤ lookupCount m (generateDomainPath domain listenPath) →
      prevPath = some listenPath →
      listenPathLoop m domain apiID prevPath listenPath = (listenPath, false)) ∧
    (2 ≤ lookupCount m (generateDomainPath domain listenPath) →
      prevPath ≠ some listenPath →
      ∃ k, listenPathLoop m domain apiID prevPath listenPath =
          (listenPath ++ "-" ++ apiID ++ underscores k, true) ∧
        lookupCount m
          (generateDomainPath domain (listenPath ++ "-" ++ apiID ++ underscores k)) < 2 ∧
        ∀ j, j < k → 2 ≤ lookupCount m
          (generateDomainPath domain (listenPath ++ "-" ++ apiID ++ underscores j))) := by
  refine ⟨?_, ?_, ?_⟩
  · intro hc
    rw [listenPathLoop, listenPathGo.eq_def]
    simp only []
    rw [if_pos hc]
  · intro hc hprev
    rw [listenPathLoop, listenPathGo.eq_def]
    simp only []
    rw [if_neg (by omega), if_pos trivial, if_pos hprev]
  · intro hc hprev
    rw [listenPathLoop, listenPathGo.eq_def]
    simp only []
    rw [if_neg (by omega), if_pos trivial, if_neg hprev]
    apply listenPathGo_suffix_spec m domain apiID prevPath (maxKeyLen m)
      (listenPath ++ "-" ++ apiID)
    have hl := length_le_of_lookupCount_pos
      (m := m) (k := generateDomainPath domain listenPath) (by omega)
    rw [generateDomainPath, String.length_append] at hl
    have hgrow : (listenPath ++ "-" ++ apiID).length =
        listenPath.length + 1 + apiID.length := by
      rw [String.length_append, String.length_append]; rfl
    omega

theorem listenPath_arbitration_witness :
    ∃ k, listenPathLoop [("/x", 2), ("/x-a", 2)] "" "a" none "/x" =
        ("/x" ++ "-" ++ "a" ++ underscores k, true) ∧
      lookupCount [("/x", 2), ("/x-a", 2)]
        (generateDomainPath "" ("/x" ++ "-" ++ "a" ++ underscores k)) < 2 ∧
      ∀ j, j < k → 2 ≤ lookupCount [("/x", 2), ("/x-a", 2)]
        (generateDomainPath "" ("/x" ++ "-" ++ "a" ++ underscores j)) :=
  (listenPath_arbitration [("/x", 2), ("/x-a", 2)] "" "a" none "/x").2.2
    (by decide) (by decide)

/-- Claim C8: termination of the suffixing.  The loop runs on the proved
fuel bound; whenever it reports a modified path the final key count is
below 2, so an unresolvable collision after suffixing cannot occur, and the
returned path never shrinks. -/
theorem suffix_loop_resolves (m : List (String × Nat)) (domain apiID : String)
    (prevPath : Option String) (listenPath : String) :
    ((listenPathLoop m domain apiID prevPath listenPath).2 = true →
      lookupCount m (generateDomainPath domain
        (listenPathLoop m domain apiID prevPath listenPath).1) < 2) ∧
    listenPath.length ≤ (listenPathLoop m domain apiID prevPath listenPath).1.length := by
  by_cases hc : lookupCount m (generateDomainPath domain listenPath) < 2
  · rw [listenPathLoop, listenPathGo.eq_def]
    simp only []
    rw [if_pos hc]
    simp
  · by_cases hprev : prevPath = some listenPath
    · rw [listenPathLoop, listenPathGo.eq_def]
      simp only []
      rw [if_neg hc, if_pos trivial, if_pos hprev]
      simp
    · have hl := length_le_of_lookupCount_pos
        (m := m) (k := generateDomainPath domain listenPath) (by omega)
      rw [generateDomainPath, String.length_append] at hl
      have hgrow : (listenPath ++ "-" ++ apiID).length =
          listenPath.length + 1 + apiID.length := by
        rw [String.length_append, String.length_append]; rfl
      obtain ⟨k, hk, hlt, hmin⟩ := listenPathGo_suffix_spec m domain apiID prevPath
        (maxKeyLen m) (listenPath ++ "-" ++ apiID) (by omega)
      rw [listenPathLoop, listenPathGo.eq_def]
      simp only []
      rw [if_neg hc, if_pos trivial, if_neg hprev, hk]
      constructor
      · intro _
        exact hlt
      · have hlen : (listenPath ++ "-" ++ apiID ++ underscores k).length =
            listenPath.length + 1 + apiID.length + (underscores k).length := by
          rw [String.length_append, String.length_append, String.length_append]
          rfl
        simp only [hlen]
        omega

theorem suffix_loop_resolves_witness :
    lookupCount [("/x", 2)] (generateDomainPath ""
      (listenPathLoop [("/x", 2)] "" "b" none "/x").1) < 2 :=
  (suffix_loop_resolves [("/x", 2)] "" "b" none "/x").1 (by decide)

theorem clampTLS_preserves (s : APISpec) :
    (clampTLS s).APIID = s.APIID ∧
    (clampTLS s).Protocol = s.Protocol ∧
    (clampTLS s).Domain = s.Domain ∧
    (clampTLS s).ListenPath = s.ListenPath ∧
    (clampTLS s).TargetURL = s.TargetURL ∧
    (clampTLS s).Internal = s.Internal ∧
    (clampTLS s).UseKeylessAccess = s.UseKeylessAccess ∧
    (clampTLS s).TagHeaders = s.TagHeaders ∧
    (clampTLS s).SSLMinVersion = s.SSLMinVersion := by
  unfold clampTLS
  split <;> dsimp only <;> split <;> simp

theorem clampTLS_ssl (s : APISpec) :
    (clampTLS s).SSLMinVersion ≤ (clampTLS s).SSLMaxVersion ∧
    ((clampTLS s).SSLMaxVersion = 0 ∨ (clampTLS s).SSLMaxVersion = versionTLS12 ∨
      (clampTLS s).SSLMaxVersion = s.SSLMinVersion) := by
  unfold clampTLS versionTLS12
  split <;> dsimp only <;> split <;> simp_all

theorem skipSpec_fst (gw : Gateway) (s : APISpec) :
    (skipSpecBecauseInvalid gw s).1 =
      (isHTTPFamilyBadListenPath s ||
        !(gw.urlParses ((gw.kvStore s.TargetURL).getD s.TargetURL))) := by
  unfold skipSpecBecauseInvalid
  by_cases hb : isHTTPFamilyBadListenPath s
  · simp [hb]
  · cases hkv : gw.kvStore s.TargetURL <;>
      by_cases hp : gw.urlParses ((gw.kvStore s.TargetURL).getD s.TargetURL) <;>
      simp_all [hkv]

theorem skipSpec_preserves (gw : Gateway) (s : APISpec) :
    (skipSpecBecauseInvalid gw s).2.APIID = s.APIID ∧
    (skipSpecBecauseInvalid gw s).2.Protocol = s.Protocol ∧
    (skipSpecBecauseInvalid gw s).2.Domain = s.Domain ∧
    (skipSpecBecauseInvalid gw s).2.ListenPath = s.ListenPath ∧
    (skipSpecBecauseInvalid gw s).2.Internal = s.Internal ∧
    (skipSpecBecauseInvalid gw s).2.UseKeylessAccess = s.UseKeylessAccess ∧
    (skipSpecBecauseInvalid gw s).2.TagHeaders = s.TagHeaders ∧
    (skipSpecBecauseInvalid gw s).2.SSLMinVersion = s.SSLMinVersion ∧
    (skipSpecBecauseInvalid gw s).2.SSLMaxVersion = s.SSLMaxVersion := by
  unfold skipSpecBecauseInvalid
  by_cases hb : isHTTPFamilyBadListenPath s
  · simp [hb]
  · cases hkv : gw.kvStore s.TargetURL <;>
      by_cases hp : gw.urlParses ((gw.kvStore s.TargetURL).getD s.TargetURL) <;>
      simp_all [hkv]

theorem lowercaseTagHeaders_preserves (s : APISpec) :
    (lowercaseTagHeaders s).APIID = s.APIID ∧
    (lowercaseTagHeaders s).Protocol = s.Protocol ∧
    (lowercaseTagHeaders s).Domain = s.Domain ∧
    (lowercaseTagHeaders s).ListenPath = s.ListenPath ∧
    (lowercaseTagHeaders s).TargetURL = s.TargetURL ∧
    (lowercaseTagHeaders s).Internal = s.Internal ∧
    (lowercaseTagHeaders s).UseKeylessAccess = s.UseKeylessAccess ∧
    (lowercaseTagHeaders s).SSLMinVersion = s.SSLMinVersion ∧
    (lowercaseTagHeaders s).SSLMaxVersion = s.SSLMaxVersion := by
  unfold lowercaseTagHeaders
  simp

theorem processSpec_ssl (gw : Gateway) (m : List (String × Nat)) (s : APISpec) :
    (processSpec gw m s).2.SSLMinVersion = (clampTLS s).SSLMinVersion ∧
    (processSpec gw m s).2.SSLMaxVersion = (clampTLS s).SSLMaxVersion := by
  unfold processSpec
  have hpres := skipSpec_preserves gw (lowercaseTagHeaders (clampTLS s))
  have hlow := lowercaseTagHeaders_preserves (clampTLS s)
  rcases hskip : skipSpecBecauseInvalid gw (lowercaseTagHeaders (clampTLS s)) with ⟨b, s2⟩
  rw [hskip] at hpres
  cases b <;> dsimp only <;> simp_all

/-- Claim C2 counterexample: for the descriptor with `ssl_min = 772`
(TLS 1.3) and `ssl_max = 0`, processed with no collisions, the normalised
maximum version is 772, which is neither 0 nor TLS 1.2: the first branch of
the normalisation fires only for a nonzero maximum, and the second branch
then raises the maximum to the arbitrary minimum. -/
theorem tls_clamp_counterexample :
    ¬((processSpec gw0 [] specMin13).2.SSLMaxVersion = 0 ∨
      (processSpec gw0 [] specMin13).2.SSLMaxVersion = versionTLS12) := by
  rw [(processSpec_ssl gw0 [] specMin13).2]
  decide

/-- Claim C2 as amended: after the TLS normalisation step of `processSpec`
the descriptor satisfies `ssl_min ≤ ssl_max`, and `ssl_max` is 0, TLS 1.2,
or the (unchanged) `ssl_min` itself; the original claim restricted
`ssl_max` to 0 or TLS 1.2, which fails when the incoming maximum is 0 and
the minimum positive. -/
theorem tls_clamp_amended (gw : Gateway) (m : List (String × Nat)) (s : APISpec) :
    (processSpec gw m s).2.SSLMinVersion ≤ (processSpec gw m s).2.SSLMaxVersion ∧
    ((processSpec gw m s).2.SSLMaxVersion = 0 ∨
      (processSpec gw m s).2.SSLMaxVersion = versionTLS12 ∨
      (processSpec gw m s).2.SSLMaxVersion = (processSpec gw m s).2.SSLMinVersion) := by
  have h := processSpec_ssl gw m s
  rw [h.1, h.2]
  have hc := clampTLS_ssl s
  have hmin := (clampTLS_preserves s).2.2.2.2.2.2.2.2
  refine ⟨hc.1, ?_⟩
  rcases hc.2 with h0 | h12 | hm
  · exact Or.inl h0
  · exact Or.inr (Or.inl h12)
  · exact Or.inr (Or.inr (by rw [hm, hmin]))

/-- Claim C5 counterexample: a non-keyless descriptor rejected by
validation (empty listen path) produces a chain object whose
`RateLimitChain` is nil, so the unrestricted second half of the claim
(every non-keyless descriptor gets a rate-limit side-chain) fails. -/
theorem keyless_side_chain_counterexample :
    specClosedInvalid.UseKeylessAccess = false ∧
    (processSpec gw0 [] specClosedInvalid).1.RateLimitChain = none := by
  decide

/-- Claim C5 as amended: `Open = true` implies a nil `RateLimitChain`
always; and every non-keyless descriptor that passes validation (its chain
object carries a main handler) has the rate-limit side-chain stored on the
chain object. -/
theorem keyless_rate_limit_amended (gw : Gateway) (m : List (String × Nat)) (s : APISpec) :
    ((processSpec gw m s).1.Open = true → (processSpec gw m s).1.RateLimitChain = none) ∧
    ((processSpec gw m s).1.ThisHandler ≠ none → s.UseKeylessAccess = false →
      (processSpec gw m s).1.RateLimitChain = some (HandlerKind.rateLimitChain s.APIID)) := by
  have hpres := skipSpec_preserves gw (lowercaseTagHeaders (clampTLS s))
  have hlow := lowercaseTagHeaders_preserves (clampTLS s)
  have hclamp := clampTLS_preserves s
  rcases hskip : skipSpecBecauseInvalid gw (lowercaseTagHeaders (clampTLS s)) with ⟨b, s2⟩
  rw [hskip] at hpres
  have hkeyless : s2.UseKeylessAccess = s.UseKeylessAccess := by
    rw [hpres.2.2.2.2.2.1, hlow.2.2.2.2.2.2.1, hclamp.2.2.2.2.2.2.1]
  have hapi : s2.APIID = s.APIID := by
    rw [hpres.1, hlow.1, hclamp.1]
  unfold processSpec
  simp only [hskip]
  cases b
  · dsimp only
    refine ⟨?_, ?_⟩
    · intro hopen
      simp only [hopen]
      simp
    · intro _ hkl
      have hfa : s2.UseKeylessAccess = false := by rw [hkeyless, hkl]
      simp [hfa, hapi]
  · dsimp only
    refine ⟨?_, ?_⟩
    · intro _
      rfl
    · intro hth _
      exact absurd rfl hth

theorem keyless_rate_limit_amended_witness :
    (processSpec gw0 [] specClosed).1.RateLimitChain =
      some (HandlerKind.rateLimitChain specClosed.APIID) :=
  (keyless_rate_limit_amended gw0 [] specClosed).2 (by decide) (by decide)

theorem skipSpec_fst_congr (gw : Gateway) {s t : APISpec}
    (h1 : s.Protocol = t.Protocol) (h2 : s.ListenPath = t.ListenPath)
    (h3 : s.TargetURL = t.TargetURL) :
    (skipSpecBecauseInvalid gw s).1 = (skipSpecBecauseInvalid gw t).1 := by
  rw [skipSpec_fst, skipSpec_fst]
  unfold isHTTPFamilyBadListenPath
  rw [h1, h2, h3]

/-- Claim C7 counterexample: a listen path containing a tab satisfies the
claim condition (the path contains whitespace, read literally) but is not
rejected: the source checks only for the space character. -/
theorem skip_spec_whitespace_counterexample :
    claimC7Condition gw0 specTabPath ∧
    (skipSpecBecauseInvalid gw0 specTabPath).1 = false := by
  constructor
  · right; left; decide
  · decide

/-- Claim C7 as amended: for a descriptor of the HTTP protocol family,
`skipSpecBecauseInvalid` returns true exactly when the listen path is
empty, or the listen path contains a space character (not every whitespace
character), or the KV-resolved target URL fails to parse; and whenever it
returns true, `processSpec` produces a chain object with `Skip = true` and
the descriptor registers no route. -/
theorem skip_spec_validation_amended (gw : Gateway) (m : List (String × Nat))
    (s : APISpec)
    (hp : s.Protocol = "" ∨ s.Protocol = "http" ∨ s.Protocol = "https") :
    (((skipSpecBecauseInvalid gw s).1 = true) ↔
      (s.ListenPath = "" ∨ stringsContainsChar s.ListenPath ' ' = true ∨
        gw.urlParses ((gw.kvStore s.TargetURL).getD s.TargetURL) = false)) ∧
    ((skipSpecBecauseInvalid gw s).1 = true →
      (processSpec gw m s).1.Skip = true ∧
      registeredRoutes (processSpec gw m s).1 (processSpec gw m s).2 = []) := by
  have hbad : isHTTPFamilyBadListenPath s =
      (s.ListenPath == "" || stringsContainsChar s.ListenPath ' ') := by
    rcases hp with h | h | h <;> (unfold isHTTPFamilyBadListenPath; rw [h]) <;> rfl
  constructor
  · rw [skipSpec_fst, hbad]
    constructor
    · intro h
      rcases Bool.or_eq_true_iff.mp h with h | h
      · rcases Bool.or_eq_true_iff.mp h with h | h
        · exact Or.inl (by simpa using h)
        · exact Or.inr (Or.inl h)
      · exact Or.inr (Or.inr (by simpa using h))
    · intro h
      rcases h with h | h | h
      · simp [h]
      · simp [h]
      · simp [h]
  · intro hskip1
    have hlow := lowercaseTagHeaders_preserves (clampTLS s)
    have hclamp := clampTLS_preserves s
    have hcongr : (skipSpecBecauseInvalid gw (lowercaseTagHeaders (clampTLS s))).1 =
        (skipSpecBecauseInvalid gw s).1 := by
      apply skipSpec_fst_congr gw
      · rw [hlow.2.1, hclamp.2.1]
      · rw [hlow.2.2.2.1, hclamp.2.2.2.1]
      · rw [hlow.2.2.2.2.1, hclamp.2.2.2.2.1]
    rcases hskip : skipSpecBecauseInvalid gw (lowercaseTagHeaders (clampTLS s)) with ⟨b, s2⟩
    have hb : b = true := by
      have h2 := hcongr
      rw [hskip] at h2
      simpa [hskip1] using h2
    subst hb
    unfold processSpec
    simp [hskip, registeredRoutes]

theorem skip_spec_validation_witness :
    (skipSpecBecauseInvalid gw0 specClosedInvalid).1 = true :=
  ((skip_spec_validation_amended gw0 [] specClosedInvalid
    (Or.inr (Or.inl rfl))).1).mpr (Or.inl rfl)

/-- Claim C3: `isLoop` reports a loop exactly when the URL scheme is the
internal scheme `tyk`; it returns an error exactly when additionally the
current loop level exceeds the cap (the request-context limit when nonzero,
5 otherwise), and the error message is exactly the source literal with the
cap interpolated; `DummyProxyHandler.ServeHTTP` answers such an error with
HTTP 500 carrying the message. -/
theorem is_loop_spec (r : Request) :
    ((isLoop r).1 = (r.URL.Scheme == "tyk")) ∧
    ((isLoop r).2 = if r.URL.Scheme = "tyk" ∧ loopCap r < r.ctxLoopLevel then
        some (loopLevelMsg (loopCap r)) else none) ∧
    (∀ msg, isLoop (consumeRequestContext r) = (true, some msg) →
      dummyProxyServeHTTP r = ServeOutcome.errorResponse 500 msg) := by
  refine ⟨?_, ?_, ?_⟩
  · by_cases h : r.URL.Scheme = "tyk" <;>
      by_cases hz : r.ctxLoopLevelLimit = 0 <;>
      by_cases hl : loopCap r < r.ctxLoopLevel <;>
      simp_all [isLoop, loopCap] <;>
      simp [Int.not_lt.mpr hl]
  · by_cases h : r.URL.Scheme = "tyk" <;>
      by_cases hz : r.ctxLoopLevelLimit = 0 <;>
      by_cases hl : loopCap r < r.ctxLoopLevel <;>
      simp_all [isLoop, loopCap] <;>
      simp [Int.not_lt.mpr hl]
  · intro msg hmsg
    unfold dummyProxyServeHTTP
    dsimp only
    rw [hmsg]

theorem is_loop_spec_witness :
    dummyProxyServeHTTP reqLoopDeep =
      ServeOutcome.errorResponse 500 (loopLevelMsg 5) :=
  (is_loop_spec reqLoopDeep).2.2 (loopLevelMsg 5) (by decide)

/-- Claim C10: `DummyProxyHandler.ServeHTTP` first consumes the two
request-context fields, unconditionally and before the loop check: a
pending URL-rewrite target replaces the URL and is cleared, then a pending
method transform replaces the method and is cleared; the `isLoop` decision
and every outcome are taken on the consumed request, so the consumption
also applies to ordinary non-loop requests. -/
theorem dummy_proxy_consumes_context (r : Request) :
    (consumeRequestContext r).URL = r.ctxURLRewriteTarget.getD r.URL ∧
    (consumeRequestContext r).ctxURLRewriteTarget = none ∧
    (consumeRequestContext r).Method =
      (if r.ctxTransformRequestMethod = "" then r.Method
        else r.ctxTransformRequestMethod) ∧
    (consumeRequestContext r).ctxTransformRequestMethod = "" ∧
    (consumeRequestContext r).ctxLoopLevel = r.ctxLoopLevel ∧
    (consumeRequestContext r).ctxLoopLevelLimit = r.ctxLoopLevelLimit ∧
    dummyProxyServeHTTP r = (match isLoop (consumeRequestContext r) with
      | (true, some msg) => ServeOutcome.errorResponse 500 msg
      | (true, none) => ServeOutcome.loopDispatch (consumeRequestContext r)
      | (false, _) => ServeOutcome.passThrough (consumeRequestContext r)) := by
  cases hu : r.ctxURLRewriteTarget <;>
    by_cases hm : r.ctxTransformRequestMethod = "" <;>
    simp_all [consumeRequestContext, dummyProxyServeHTTP]

/-- Claim C6: the strict-prefix gate.  With the feature disabled, a
trailing-slash prefix, or a parameterised prefix, `explicitRouteSubpaths`
returns the handler unchanged; otherwise it wraps it, and the wrapper
forwards exactly the requests whose path equals the prefix or begins with
the prefix followed by a slash, answering every other request with 404 and
the standard status text. -/
theorem explicit_route_gate_spec (enabled : Bool) (pfx : String)
    (handler : HTTPHandler) (urlPath : String) :
    ((enabled = false ∨ stringsHasSuffix pfx "/" = true ∨
        (stringsContainsChar pfx '{' = true ∧ stringsContainsChar pfx '}' = true)) →
      explicitRouteSubpaths pfx handler enabled = handler) ∧
    (enabled = true → stringsHasSuffix pfx "/" = false →
      (stringsContainsChar pfx '{' && stringsContainsChar pfx '}') = false →
      explicitRouteSubpaths pfx handler enabled =
        HTTPHandler.explicitRouteHandler pfx handler ∧
      (explicitRouteServe pfx handler urlPath = ServeResult.forwarded handler ↔
        (urlPath = pfx ∨ stringsHasPrefix urlPath (pfx ++ "/") = true)) ∧
      (¬(urlPath = pfx ∨ stringsHasPrefix urlPath (pfx ++ "/") = true) →
        explicitRouteServe pfx handler urlPath =
          ServeResult.response 404 "Not Found")) := by
  constructor
  · intro h
    rcases h with h | h | h
    · simp [explicitRouteSubpaths, h]
    · simp [explicitRouteSubpaths, h]
    · by_cases he : enabled <;> simp [explicitRouteSubpaths, he, h.1, h.2]
  · intro he hsuf hpar
    refine ⟨?_, ?_, ?_⟩
    · simp [explicitRouteSubpaths, he, hsuf, hpar]
    · unfold explicitRouteServe
      by_cases hfwd : (urlPath == pfx || stringsHasPrefix urlPath (pfx ++ "/")) = true
      · rw [if_pos hfwd]
        refine iff_of_true rfl ?_
        rcases Bool.or_eq_true_iff.mp hfwd with h | h
        · exact Or.inl (by simpa using h)
        · exact Or.inr h
      · rw [if_neg hfwd]
        constructor
        · intro h
          cases h
        · intro h
          exact absurd (by rcases h with h | h <;> simp [h]) hfwd
    · intro hmiss
      unfold explicitRouteServe
      rw [if_neg (by
        intro hc
        rcases Bool.or_eq_true_iff.mp hc with h | h
        · exact hmiss (Or.inl (by simpa using h))
        · exact hmiss (Or.inr h))]

theorem explicit_route_gate_witness :
    explicitRouteSubpaths "/foo" (HTTPHandler.chain "api") true =
      HTTPHandler.explicitRouteHandler "/foo" (HTTPHandler.chain "api") :=
  ((explicit_route_gate_spec true "/foo" (HTTPHandler.chain "api") "/foo/x").2
    rfl (by decide) (by decide)).1

/-- Claim C9 counterexample: on a name whose first character is the hash,
`APILoopingName` is not defined: `strings.Index` returns 0 and the slice
`name[:0-1]` in `trimCategories` is out of range, a runtime panic
(modelled as `none`), contradicting the totality asserted by the claim. -/
theorem api_looping_name_counterexample : APILoopingName "#ab" = none := by
  decide

/-- Claim C9 as amended: for every name whose first `#` is not the first
character, `APILoopingName` is defined and equals the spec recipe (strip
everything at and after the first `#` including the one preceding
character, then replace non-alphanumeric characters); names without `#`
pass through to the replacement step unchanged.  A name beginning with `#`
faults at run time. -/
theorem api_looping_name_amended (name : String)
    (h : name.data.findIdx? (fun c => c == '#') ≠ some 0) :
    APILoopingName name = some (replaceNonAlphaNumeric (specTrimCategories name)) := by
  unfold APILoopingName trimCategories specTrimCategories
  cases hf : name.data.findIdx? (fun c => c == '#') with
  | none => simp
  | some i =>
      rw [hf] at h
      have hi : i ≠ 0 := by
        intro h0
        subst h0
        exact h rfl
      simp [hi]

theorem api_looping_name_amended_witness :
    APILoopingName "a #b" =
      some (replaceNonAlphaNumeric (specTrimCategories "a #b")) :=
  api_looping_name_amended "a #b" (by decide)
